import Mathlib

/-!
# QA-Backend: verification of the access-control / plan-enforcement and
  activity/notification subsystem

Shallow embedding of the Express + Prisma backend.  Times are modelled as
natural numbers (milliseconds since the epoch, as JavaScript `Date.getTime()`),
database tables as Lean lists of structure rows, and each HTTP handler as a
pure function from the relevant rows (plus the request data) to a result and
the updated rows.  Prisma `$transaction` blocks become a single Lean function
application, which is exactly their all-or-nothing semantics.
-/

namespace QABackend

/-! ## Plan policy engine (`requireActivePlan`)

The middleware fetches the team with its subscription, members, and per-site
report counts, then applies four checks in order.  A ceiling of `none` models
the JavaScript `Infinity` (against which both `>=` and `>` are false for any
finite count). -/

structure PlanLimits where
  reports : Option Nat
  members : Option Nat
  sites : Option Nat
deriving DecidableEq, Repr

/-- The `PLAN_LIMITS` table of `requireActivePlan`; an unknown plan label
falls back to the `free` row (`PLAN_LIMITS[plan] || PLAN_LIMITS.free`). -/
def PLAN_LIMITS (plan : String) : PlanLimits :=
  if plan = "free" then ⟨some 50, some 3, some 3⟩
  else if plan = "starter" then ⟨some 1000, some 10, some 5⟩
  else if plan = "team" then ⟨some 5000, some 50, none⟩
  else if plan = "agency" then ⟨none, none, none⟩
  else ⟨some 50, some 3, some 3⟩

/-- JavaScript `count >= ceiling` where `ceiling` may be `Infinity` (`none`). -/
def geCeil (count : Nat) (ceiling : Option Nat) : Bool :=
  match ceiling with
  | none => false
  | some c => c ≤ count

/-- JavaScript `count > ceiling` where `ceiling` may be `Infinity` (`none`). -/
def gtCeil (count : Nat) (ceiling : Option Nat) : Bool :=
  match ceiling with
  | none => false
  | some c => c < count

inductive GateResult where
  /-- 402 "Your subscription is inactive. Please update billing." -/
  | paymentRequired
  /-- 403 "Report limit reached for this plan" -/
  | reportLimit
  /-- 403 "Member limit exceeded for this plan" -/
  | memberLimit
  /-- 403 "Site limit reached for this plan" -/
  | siteLimit
  /-- `next()` with `req.teamPlan = { plan, limits, totalReports, members, sites }` -/
  | pass (plan : String) (limits : PlanLimits) (totalReports members sites : Nat)
deriving DecidableEq, Repr

/-- JavaScript `team.subscription?.plan || 'free'` (an empty string is falsy). -/
def effectivePlan (subscription : Option (String × String)) : String :=
  match subscription with
  | none => "free"
  | some (p, _) => if p = "" then "free" else p

/-- JavaScript `team.subscription?.status || 'active'`. -/
def effectiveStatus (subscription : Option (String × String)) : String :=
  match subscription with
  | none => "active"
  | some (_, s) => if s = "" then "active" else s

/-- The `requireActivePlan` middleware, embedded over the resolved team data:
`subscription` is the team's optional Subscription row as a `(plan, status)`
pair, `siteReportCounts` lists each team site's report count (so the team's
site count is its length and the total report count its sum), and
`memberCount` is `team.members.length`. -/
def requireActivePlan (subscription : Option (String × String))
    (siteReportCounts : List Nat) (memberCount : Nat) : GateResult :=
  let plan := effectivePlan subscription
  let subscriptionStatus := effectiveStatus subscription
  let limits := PLAN_LIMITS plan
  if plan ≠ "free" ∧ subscriptionStatus ≠ "active" then .paymentRequired
  else
    let totalReports := siteReportCounts.foldl (· + ·) 0
    if geCeil totalReports limits.reports then .reportLimit
    else if gtCeil memberCount limits.members then .memberLimit
    else if geCeil siteReportCounts.length limits.sites then .siteLimit
    else .pass plan limits totalReports memberCount siteReportCounts.length

/-! ## Membership & invite lifecycle (`POST /teams/join`)

The handler looks the invite up by its unique code, rejects unknown, expired
and already-used codes in that order, returns an idempotent success when the
redeeming user is already a member of the invite's team, and otherwise runs a
single `prisma.$transaction` creating the TeamMember row and marking the
invite used. -/

structure TeamInvite where
  id : String
  code : String
  teamId : String
  role : String
  email : Option String
  used : Bool
  expiresAt : Nat
deriving DecidableEq, Repr

structure TeamMember where
  teamId : String
  userId : String
  role : String
deriving DecidableEq, Repr

structure JoinState where
  invites : List TeamInvite
  members : List TeamMember
deriving DecidableEq, Repr

inductive JoinResult where
  /-- 400 "Invalid invite link" -/
  | invalidInvite
  /-- 400 "This invite has expired" -/
  | inviteExpired
  /-- 400 "This invite has already been used" -/
  | inviteAlreadyUsed
  /-- 200 `{ joined: true, alreadyMember: true }` -/
  | alreadyMember
  /-- 200 `{ joined: true }` -/
  | joined
deriving DecidableEq, Repr

/-- `prisma.teamInvite.update({ where: { id }, data: { used: true } })`. -/
def markInviteUsed (invites : List TeamInvite) (id : String) : List TeamInvite :=
  invites.map (fun i => if i.id = id then { i with used := true } else i)

/-- The `POST /teams/join` handler body.  `now` is `new Date()` at request
time; the invite lookup is `findUnique({ where: { code } })` over the
`code`-unique table. -/
def joinTeam (st : JoinState) (userId code : String) (now : Nat) :
    JoinResult × JoinState :=
  match st.invites.find? (fun i => i.code = code) with
  | none => (.invalidInvite, st)
  | some invite =>
    if invite.expiresAt < now then (.inviteExpired, st)
    else if invite.used then (.inviteAlreadyUsed, st)
    else if st.members.any (fun m => m.teamId = invite.teamId ∧ m.userId = userId) then
      (.alreadyMember, st)
    else
      (.joined,
        { invites := markInviteUsed st.invites invite.id,
          members := st.members ++ [⟨invite.teamId, userId, invite.role⟩] })

/-! ## QA reports and the PATCH handlers

`QAReport` keeps the columns the verified handlers read or write; `userId`
and `siteId` are nullable in the schema.  `timestamp` is the creation time in
milliseconds. -/

structure QAReport where
  id : String
  userId : Option String
  userName : String
  title : String
  siteName : String
  status : String
  priority : String
  timestamp : Nat
  resolvedAt : Option Nat
  duration : Option Int
  dueDate : Option Nat
  archived : Bool
  siteId : Option String
  imagePath : String
deriving DecidableEq, Repr

/-- JavaScript `Math.round(d / 60000)` for an integer millisecond difference
`d`: `Math.round x = ⌊x + 1/2⌋`, so over the integers it is
`⌊(2·d + 60000) / 120000⌋` with flooring division. -/
def jsRoundDiv60000 (d : Int) : Int := Int.fdiv (2 * d + 60000) 120000

/-- The `PATCH /api/report/:id` handler body on the found report: the update
object always carries the new `status`, and when that status is `"done"` it
additionally carries `resolvedAt = new Date()` and
`duration = Math.round((resolvedAt - timestamp) / 60000)`. -/
def patchReport (r : QAReport) (status : String) (now : Nat) : QAReport :=
  if status = "done" then
    { r with status := status, resolvedAt := some now,
             duration := some (jsRoundDiv60000 ((now : Int) - (r.timestamp : Int))) }
  else
    { r with status := status }

/-- An Activity row as written by `logActivity` (absent payload fields are
stored as null). -/
structure Activity where
  userId : Option String
  actorId : String
  atype : String
  reportId : Option String
  message : String
  status : Option String
  priority : Option String
  dueDate : Option Nat
deriving DecidableEq, Repr

/-- `PATCH /api/report/:id/status`: updates only the `status` column, then
logs a `status` Activity exactly when the acting user differs from the
report's (possibly null) owner. -/
def patchStatusHandler (r : QAReport) (activities : List Activity)
    (actorId actorName status : String) : QAReport × List Activity :=
  let updated := { r with status := status }
  if updated.userId ≠ some actorId then
    (updated, activities ++
      [{ userId := updated.userId, actorId := actorId, atype := "status",
         reportId := some r.id,
         message := actorName ++ " moved your task to \"" ++ status ++ "\"",
         status := some status, priority := none, dueDate := none }])
  else (updated, activities)

/-- `PATCH /api/report/:id/priority`: rejects a priority outside the allowed
list (400), else updates only `priority` and logs a `priority` Activity
exactly when the acting user differs from the owner. -/
def patchPriorityHandler (r : QAReport) (activities : List Activity)
    (actorId priority : String) : Option (QAReport × List Activity) :=
  if ¬ (["not assigned", "low", "medium", "high", "urgent"].contains priority) then
    none
  else
    let updated := { r with priority := priority }
    if updated.userId ≠ some actorId then
      some (updated, activities ++
        [{ userId := updated.userId, actorId := actorId, atype := "priority",
           reportId := some r.id,
           message := "changed priority to " ++ priority,
           status := none, priority := some priority, dueDate := none }])
    else some (updated, activities)

/-- `PATCH /api/report/:id/due-date`: updates only `dueDate` (null clears it)
and logs a `due_date` Activity exactly when the owner is non-null and differs
from the acting user (`updatedReport.userId && updatedReport.userId !==
req.user.id`).  The human-readable date in the message is abstracted to
`toString`. -/
def patchDueDateHandler (r : QAReport) (activities : List Activity)
    (actorId : String) (dueDate : Option Nat) : QAReport × List Activity :=
  let updated := { r with dueDate := dueDate }
  if (match updated.userId with | some o => decide (o ≠ actorId) | none => false) then
    (updated, activities ++
      [{ userId := updated.userId, actorId := actorId, atype := "due_date",
         reportId := some r.id,
         message := match dueDate with
           | some d => "set due date to " ++ toString d
           | none => "cleared the due date",
         status := none, priority := none, dueDate := dueDate }])
  else (updated, activities)

/-- A concrete report owned by `"u1"`, created at time 0, used to exercise
the PATCH handlers. -/
def c4Report : QAReport :=
  { id := "r1", userId := some "u1", userName := "User One", title := "T",
    siteName := "S", status := "new", priority := "low", timestamp := 0,
    resolvedAt := none, duration := none, dueDate := none, archived := false,
    siteId := none, imagePath := "img1" }

/-! ## Report deletion with site cascade (`DELETE /api/report/:id`)

The handler runs one transaction: look the report up (404 aborts), unlink its
image file and its `uploads/<id>.json` metadata file when present, delete the
report row, and, when the report had a site, delete that site exactly when no
report on it remains. -/

structure Site where
  id : String
  domain : String
  name : String
  teamId : Option String
deriving DecidableEq, Repr

structure DeleteState where
  reports : List QAReport
  sites : List Site
  files : List String
deriving DecidableEq, Repr

/-- The post-delete site check of the transaction: when the deleted report
had a site and no remaining report references it, that site row is deleted. -/
def cascadeSites (sites : List Site) (remaining : List QAReport)
    (siteId : Option String) : List Site :=
  match siteId with
  | none => sites
  | some sid =>
    if (remaining.filter (fun r => r.siteId = some sid)).length = 0 then
      sites.filter (fun s => s.id ≠ sid)
    else sites

/-- The `DELETE /api/report/:id` transaction body; `none` is the rolled-back
`REPORT_NOT_FOUND` (404) outcome. -/
def deleteReportHandler (st : DeleteState) (id : String) : Option DeleteState :=
  match st.reports.find? (fun r => r.id = id) with
  | none => none
  | some report =>
    let files1 := (st.files.filter (fun f => f ≠ report.imagePath)).filter
        (fun f => f ≠ "uploads/" ++ id ++ ".json")
    let reports1 := st.reports.filter (fun r => r.id ≠ id)
    some { reports := reports1,
           sites := cascadeSites st.sites reports1 report.siteId,
           files := files1 }

/-! ## Site-name resolution in `POST /api/report`

`const domain = new URL(url).hostname.replace('www.', '')` — note that the
JavaScript string (non-regex) `replace` removes the FIRST occurrence of the
pattern, wherever it appears — then
`siteName = og:site_name attr || title.text().trim() || domain`, with any
fetch error caught and degrading to `domain`. -/

/-- JavaScript `String.prototype.replace` with a plain-string pattern over
character lists: rewrite the first occurrence of `pat`, leave the rest. -/
def replaceFirstChars (s pat rep : List Char) : List Char :=
  match s with
  | [] => []
  | c :: rest =>
    if pat.isPrefixOf (c :: rest) then rep ++ (c :: rest).drop pat.length
    else c :: replaceFirstChars rest pat rep

def jsReplaceFirst (s pat rep : String) : String :=
  String.mk (replaceFirstChars s.toList pat.toList rep.toList)

/-- `hostname.replace('www.', '')`. -/
def bareDomain (hostname : String) : String := jsReplaceFirst hostname "www." ""

/-- JavaScript truthy-`||` for a string that may be `undefined` or empty. -/
def jsOrElse (a : Option String) (b : String) : String :=
  match a with
  | some s => if s = "" then b else s
  | none => b

/-- JavaScript `String.prototype.trim`: drop whitespace from both ends. -/
def jsTrim (s : String) : String :=
  String.mk
    (((s.toList.dropWhile Char.isWhitespace).reverse.dropWhile
      Char.isWhitespace).reverse)

/-- The site-name resolution of `POST /api/report`: `fetched` is `none` when
the page fetch threw, otherwise the pair of the page's optional
`og:site_name` attribute and its (possibly empty) title text. -/
def deriveSiteName (fetched : Option (Option String × String))
    (hostname : String) : String :=
  let domain := bareDomain hostname
  match fetched with
  | none => domain
  | some (ogSiteName, titleText) =>
    jsOrElse ogSiteName (jsOrElse (some (jsTrim titleText)) domain)

/-! ## Comments and persisted notifications -/

/-- A persisted Notification row; `read` defaults to false and `createdAt` to
the insertion time. -/
structure StoredNotification where
  id : String
  userId : String
  ntype : String
  message : String
  read : Bool
  createdAt : Nat
  reportId : Option String
  commentId : Option String
deriving DecidableEq, Repr

structure CommentRow where
  id : String
  content : String
  reportId : String
  parentId : Option String
  userId : String
deriving DecidableEq, Repr

/-- The `POST /api/reports/:reportId/comments` handler body (attachment
upload elided — it only adds rows to the comment): validates that `reportId`
and `content` are non-empty, inserts the comment authored by the
authenticated user, and then unconditionally inserts one MENTION notification
whose `userId` is that same acting user.  `newCommentId` and `newNotifId` are
the database-generated ids and `now` the insertion time. -/
def createCommentHandler (comments : List CommentRow)
    (notifs : List StoredNotification) (reportId content : String)
    (parentId : Option String) (actorId actorName : String)
    (newCommentId newNotifId : String) (now : Nat) :
    Option (List CommentRow × List StoredNotification) :=
  if reportId = "" ∨ content = "" then none
  else
    some
      (comments ++
        [{ id := newCommentId, content := content, reportId := reportId,
           parentId := parentId, userId := actorId }],
       notifs ++
        [{ id := newNotifId, userId := actorId, ntype := "MENTION",
           message := actorName ++ " mentioned you in a comment",
           read := false, createdAt := now, reportId := some reportId,
           commentId := some newCommentId }])

/-! ## The notification feed (`GET /api/notifications`)

The handler merges the user's 50 most recent stored Notification rows with
two families of derived entries computed from the user's reports' due dates,
and sorts the union by timestamp descending (`(a, b) => b.createdAt -
a.createdAt`, a stable sort in JavaScript engines; modelled by the stable
`List.insertionSort` under the same descending relation). -/

structure FeedEntry where
  id : String
  ftype : String
  message : String
  read : Bool
  createdAt : Nat
deriving DecidableEq, Repr

/-- Projection of a persisted Notification row into the merged feed (`read`
is carried over from the row). -/
def storedEntry (n : StoredNotification) : FeedEntry :=
  { id := n.id, ftype := n.ntype, message := n.message, read := n.read,
    createdAt := n.createdAt }

/-- The derived overdue entry: id `overdue-<id>`, timestamp the report's due
date, hardcoded `read: false`. -/
def overdueEntry (r : QAReport) (d : Nat) : FeedEntry :=
  { id := "overdue-" ++ r.id, ftype := "TASK_OVERDUE",
    message := "Task \"" ++ r.title ++ "\" is overdue", read := false,
    createdAt := d }

/-- The derived due-today entry: id `today-<id>`, timestamp the report's due
date, hardcoded `read: false`. -/
def dueTodayEntry (r : QAReport) (d : Nat) : FeedEntry :=
  { id := "today-" ++ r.id, ftype := "TASK_DUE_TODAY",
    message := "Task \"" ++ r.title ++ "\" is due today", read := false,
    createdAt := d }

/-- Descending-timestamp order of the final feed sort. -/
def feedDescR (a b : FeedEntry) : Prop := b.createdAt ≤ a.createdAt

instance : DecidableRel feedDescR := fun a b => Nat.decLe b.createdAt a.createdAt

instance : IsTotal FeedEntry feedDescR :=
  ⟨fun a b => (Nat.le_total b.createdAt a.createdAt).imp id id⟩

instance : IsTrans FeedEntry feedDescR :=
  ⟨fun _ _ _ h1 h2 => Nat.le_trans h2 h1⟩

/-- Descending-`createdAt` order of the stored-notification query
(`orderBy: { createdAt: 'desc' }`). -/
def storedDescR (a b : StoredNotification) : Prop := b.createdAt ≤ a.createdAt

instance : DecidableRel storedDescR := fun a b => Nat.decLe b.createdAt a.createdAt

/-- Query 2 of the handler: the user's reports with `dueDate < startOfDay`
and `status ≠ 'resolved'` (null due dates excluded by the `lt` filter),
mapped to overdue entries. -/
def overdueEntries (reports : List QAReport) (u : String)
    (startOfDay : Nat) : List FeedEntry :=
  reports.filterMap (fun r =>
    match r.dueDate with
    | some d =>
      if r.userId = some u ∧ d < startOfDay ∧ r.status ≠ "resolved" then
        some (overdueEntry r d)
      else none
    | none => none)

/-- Query 3 of the handler: the user's reports with `startOfDay ≤ dueDate ≤
endOfDay` and `status ≠ 'resolved'`, mapped to due-today entries. -/
def dueTodayEntries (reports : List QAReport) (u : String)
    (startOfDay endOfDay : Nat) : List FeedEntry :=
  reports.filterMap (fun r =>
    match r.dueDate with
    | some d =>
      if r.userId = some u ∧ startOfDay ≤ d ∧ d ≤ endOfDay
          ∧ r.status ≠ "resolved" then
        some (dueTodayEntry r d)
      else none
    | none => none)

/-- The `GET /api/notifications` handler: stored rows of the user (most
recent 50), plus both derived families, merged and re-sorted descending. -/
def getNotifications (stored : List StoredNotification)
    (reports : List QAReport) (u : String)
    (startOfDay endOfDay : Nat) : List FeedEntry :=
  let storedRows :=
    ((((stored.filter (fun n => n.userId = u)).insertionSort
        storedDescR).take 50).map storedEntry)
  (storedRows ++ overdueEntries reports u startOfDay
    ++ dueTodayEntries reports u startOfDay endOfDay).insertionSort feedDescR

/-- Stated from the spec's wording for comparison with the code: §4.4 gives
the report lifecycle `new → inProgress → done`, so an "open" report is one
whose status is not the terminal `done`. -/
def specOpenReport (r : QAReport) : Bool := r.status ≠ "done"

/-- A completed (`done`, resolved) report with a long-past due date. -/
def c5DoneReport : QAReport :=
  { id := "rd", userId := some "u1", userName := "User One",
    title := "Done task", siteName := "S", status := "done",
    priority := "low", timestamp := 0, resolvedAt := some 50,
    duration := some 1, dueDate := some 10, archived := false,
    siteId := some "s1", imagePath := "img-rd" }

/-! ## Invite-link minting (`POST /teams/:teamId/invite-link`)

The route is registered without `authenticateToken` and without
`requireActivePlan`; its handler reads nothing from the request beyond the
team id and the optional body role. -/

/-- The 32-character code alphabet (no 0, 1, I or O). -/
def inviteCodeAlphabet : List Char := "ABCDEFGHJKLMNPQRSTUVWXYZ23456789".toList

/-- One `chars[Math.floor(Math.random() * chars.length)]` draw; the raw draw
`n` is reduced mod 32 (a real draw is already `< 32`, so this loses
nothing). -/
def pickChar (n : Nat) : Char := inviteCodeAlphabet.getD (n % 32) 'A'

/-- `handleGenerateNewCode` over the 12 random draws, as a character list:
`TEAM-` followed by three dash-separated groups of four alphabet
characters. -/
def handleGenerateNewCodeChars (rand : List Nat) : List Char :=
  ['T', 'E', 'A', 'M', '-']
    ++ (List.range 4).map (fun j => pickChar (rand.getD j 0)) ++ ['-']
    ++ (List.range 4).map (fun j => pickChar (rand.getD (4 + j) 0)) ++ ['-']
    ++ (List.range 4).map (fun j => pickChar (rand.getD (8 + j) 0))

def handleGenerateNewCode (rand : List Nat) : String :=
  String.mk (handleGenerateNewCodeChars rand)

/-- `TEAM-XXXX-XXXX-XXXX` with every `X` drawn from the restricted
alphabet. -/
def codeFormatOk (s : String) : Bool :=
  match s.toList with
  | ['T', 'E', 'A', 'M', '-', a, b, c, d, '-', e, f, g, h, '-', i, j, k, l] =>
    [a, b, c, d, e, f, g, h, i, j, k, l].all inviteCodeAlphabet.contains
  | _ => false

/-- The `POST /teams/:teamId/invite-link` handler: `authHeader` is the raw
`Authorization` header, accepted untouched because no auth middleware runs on
this route; the body role defaults to `"member"`, the expiry is 7 days from
`now`, and a fresh invite row is always appended. -/
def inviteLinkHandler (invites : List TeamInvite) (teamId : String)
    (roleBody : Option String) (_authHeader : Option String) (now : Nat)
    (rand : List Nat) (newId : String) : String × List TeamInvite :=
  let role := roleBody.getD "member"
  let expiresAt := now + 7 * 24 * 60 * 60 * 1000
  let code := handleGenerateNewCode rand
  (code, invites ++
    [{ id := newId, code := code, teamId := teamId, role := role,
       email := none, used := false, expiresAt := expiresAt }])

/-- Two reports on the same site, used to exercise the delete cascade. -/
def c7r1 : QAReport :=
  { id := "r1", userId := some "u1", userName := "User One", title := "A",
    siteName := "S", status := "new", priority := "low", timestamp := 0,
    resolvedAt := none, duration := none, dueDate := none, archived := false,
    siteId := some "s1", imagePath := "img-r1" }

def c7r2 : QAReport := { c7r1 with id := "r2", imagePath := "img-r2" }

def c7State : DeleteState :=
  { reports := [c7r1, c7r2],
    sites := [{ id := "s1", domain := "example.com", name := "Example",
                teamId := some "t1" }],
    files := ["img-r1", "img-r2", "uploads/r1.json", "uploads/r2.json"] }

/-- A one-invite, no-member store used to exercise the redemption handler on
concrete inputs. -/
def c2Invite : TeamInvite :=
  { id := "inv1", code := "TEAM-AAAA-BBBB-CCCC", teamId := "t1",
    role := "member", email := none, used := false, expiresAt := 1000 }

def c2State : JoinState := { invites := [c2Invite], members := [] }

end QABackend

namespace QABackend

/-- Marking an invite used never changes which invite a code lookup finds,
only its `used` flag. -/
theorem find?_markInviteUsed (invites : List TeamInvite) (id code : String) :
    (markInviteUsed invites id).find? (fun i => i.code = code) =
      (invites.find? (fun i => i.code = code)).map
        (fun i => if i.id = id then { i with used := true } else i) := by
  unfold markInviteUsed
  rw [List.find?_map]
  congr 1
  apply congrArg (fun p => List.find? p invites)
  funext i
  by_cases h : i.id = id <;> simp [h, Function.comp]

/-- C1: the plan gate evaluates its checks in short-circuit order with exactly
these comparisons: (a) non-free plan with inactive subscription is rejected as
payment-required; (b) else total reports `≥` the report ceiling is rejected as
limit-reached; (c) else member count `>` the member ceiling is rejected;
(d) else site count `≥` the site ceiling is rejected; otherwise the gate
passes, attaching the resolved plan context.  On the free plan (ceilings
reports = 50, members = 3, sites = 3), 50 existing reports reject report
creation with the limit error while 49 existing reports pass the report
check. -/
theorem requireActivePlan_gate_order (subscription : Option (String × String))
    (siteReportCounts : List Nat) (memberCount : Nat) :
    (let plan := effectivePlan subscription
     let status := effectiveStatus subscription
     let limits := PLAN_LIMITS plan
     let totalReports := siteReportCounts.foldl (· + ·) 0
     let siteCount := siteReportCounts.length
     let result := requireActivePlan subscription siteReportCounts memberCount
     (result = .paymentRequired ↔ (plan ≠ "free" ∧ status ≠ "active"))
     ∧ (result = .reportLimit ↔
          ¬(plan ≠ "free" ∧ status ≠ "active") ∧ geCeil totalReports limits.reports = true)
     ∧ (result = .memberLimit ↔
          ¬(plan ≠ "free" ∧ status ≠ "active") ∧ geCeil totalReports limits.reports = false
          ∧ gtCeil memberCount limits.members = true)
     ∧ (result = .siteLimit ↔
          ¬(plan ≠ "free" ∧ status ≠ "active") ∧ geCeil totalReports limits.reports = false
          ∧ gtCeil memberCount limits.members = false
          ∧ geCeil siteCount limits.sites = true)
     ∧ (result = .pass plan limits totalReports memberCount siteCount ↔
          ¬(plan ≠ "free" ∧ status ≠ "active") ∧ geCeil totalReports limits.reports = false
          ∧ gtCeil memberCount limits.members = false
          ∧ geCeil siteCount limits.sites = false))
    ∧ PLAN_LIMITS "free" = ⟨some 50, some 3, some 3⟩
    ∧ requireActivePlan none [25, 25] 3 = .reportLimit
    ∧ requireActivePlan none [24, 25] 3 =
        .pass "free" ⟨some 50, some 3, some 3⟩ 49 3 2 := by
  refine ⟨?_, by decide, by decide, by decide⟩
  simp only [requireActivePlan]
  split
  · next h =>
    refine ⟨by simp [h], ?_, ?_, ?_, ?_⟩ <;> simp [h]
  · next h =>
    split
    · next hr =>
      refine ⟨by simp [h], by simp [h, hr], ?_, ?_, ?_⟩ <;> simp [h, hr]
    · next hr =>
      split
      · next hm =>
        refine ⟨?_, ?_, ?_, ?_, ?_⟩ <;> simp_all
      · next hm =>
        split
        · next hs =>
          refine ⟨?_, ?_, ?_, ?_, ?_⟩ <;> simp_all
        · next hs =>
          refine ⟨?_, ?_, ?_, ?_, ?_⟩ <;> simp_all

/-- C2 counterexample: after a user's own successful redemption, a second
redemption attempt by that same user does NOT succeed — the handler's
used-flag check runs before its membership check, so it fails with
"This invite has already been used". -/
theorem joinTeam_same_user_retry_not_idempotent :
    (joinTeam c2State "alice" "TEAM-AAAA-BBBB-CCCC" 10).1 = .joined
    ∧ (joinTeam (joinTeam c2State "alice" "TEAM-AAAA-BBBB-CCCC" 10).2
        "alice" "TEAM-AAAA-BBBB-CCCC" 20).1 = .inviteAlreadyUsed := by
  constructor <;> rfl

/-- C2 (amended): redemption fails for an unknown code, then (in order) with
an expired error past `expiresAt`, then with an already-used error when
`used = true`; when the redeeming user already holds a membership in the
invite's team (and the invite is still unexpired and unused) it succeeds
idempotently without touching the store; otherwise it atomically admits the
member and marks the invite used — after which ANY second unexpired
redemption of the same code, by the same user or a different one, fails with
the already-used error (the used check precedes the membership check). -/
theorem joinTeam_redemption_spec (st : JoinState) (u code : String) (now : Nat) :
    (st.invites.find? (fun i => i.code = code) = none →
      joinTeam st u code now = (.invalidInvite, st))
    ∧ (∀ inv, st.invites.find? (fun i => i.code = code) = some inv →
        (inv.expiresAt < now → joinTeam st u code now = (.inviteExpired, st))
        ∧ (¬ inv.expiresAt < now → inv.used = true →
            joinTeam st u code now = (.inviteAlreadyUsed, st))
        ∧ (¬ inv.expiresAt < now → inv.used = false →
            (∃ m ∈ st.members, m.teamId = inv.teamId ∧ m.userId = u) →
            joinTeam st u code now = (.alreadyMember, st))
        ∧ (¬ inv.expiresAt < now → inv.used = false →
            (∀ m ∈ st.members, ¬(m.teamId = inv.teamId ∧ m.userId = u)) →
            joinTeam st u code now =
              (.joined, ⟨markInviteUsed st.invites inv.id,
                         st.members ++ [⟨inv.teamId, u, inv.role⟩]⟩)
            ∧ ∀ u' now', ¬ inv.expiresAt < now' →
                (joinTeam (joinTeam st u code now).2 u' code now').1 =
                  .inviteAlreadyUsed)) := by
  constructor
  · intro h
    simp [joinTeam, h]
  · intro inv hfind
    refine ⟨?_, ?_, ?_, ?_⟩
    · intro hexp
      simp [joinTeam, hfind, hexp]
    · intro hexp hused
      simp [joinTeam, hfind, hexp, hused]
    · intro hexp hused hmem
      simp [joinTeam, hfind, hexp, hused, hmem]
    · intro hexp hused hmem
      have hnex : ¬ ∃ m ∈ st.members, m.teamId = inv.teamId ∧ m.userId = u :=
        fun ⟨m, hm, h⟩ => hmem m hm h
      have hrun : joinTeam st u code now =
          (.joined, ⟨markInviteUsed st.invites inv.id,
                     st.members ++ [⟨inv.teamId, u, inv.role⟩]⟩) := by
        simp [joinTeam, hfind, hexp, hused, hnex]
      refine ⟨hrun, ?_⟩
      intro u' now' hexp'
      rw [hrun]
      have hfind' : (markInviteUsed st.invites inv.id).find?
          (fun i => i.code = code) = some { inv with used := true } := by
        rw [find?_markInviteUsed, hfind]
        simp
      simp [joinTeam, hfind', hexp']

/-- C2 witness: on the concrete one-invite store, the amended theorem yields
the successful first redemption by "alice" and the already-used failure of a
second redemption by "bob". -/
theorem joinTeam_redemption_spec_witness :
    joinTeam c2State "alice" "TEAM-AAAA-BBBB-CCCC" 10 =
      (.joined, ⟨markInviteUsed c2State.invites "inv1",
                 c2State.members ++ [⟨"t1", "alice", "member"⟩]⟩)
    ∧ (joinTeam (joinTeam c2State "alice" "TEAM-AAAA-BBBB-CCCC" 10).2
        "bob" "TEAM-AAAA-BBBB-CCCC" 20).1 = .inviteAlreadyUsed := by
  have h := ((joinTeam_redemption_spec c2State "alice" "TEAM-AAAA-BBBB-CCCC" 10).2
    c2Invite (by decide)).2.2.2 (by decide) (by decide) (by decide)
  exact ⟨h.1, h.2 "bob" 20 (by decide)⟩

/-- C3: invite redemption is all-or-nothing — every run of the handler either
leaves the store byte-for-byte unchanged or (exactly when it admits a new
member) both appends the TeamMember row and sets the found invite's `used`
flag in the same single step; no state with only one of the two changes is
ever produced. -/
theorem joinTeam_atomic (st : JoinState) (u code : String) (now : Nat) :
    (joinTeam st u code now).2 = st
    ∨ ((joinTeam st u code now).1 = .joined
       ∧ ∃ inv, st.invites.find? (fun i => i.code = code) = some inv
           ∧ inv.used = false ∧ ¬ inv.expiresAt < now
           ∧ (joinTeam st u code now).2 =
               ⟨markInviteUsed st.invites inv.id,
                st.members ++ [⟨inv.teamId, u, inv.role⟩]⟩
           ∧ (joinTeam st u code now).2.invites.find? (fun i => i.code = code) =
               some { inv with used := true }
           ∧ ⟨inv.teamId, u, inv.role⟩ ∈ (joinTeam st u code now).2.members) := by
  rcases hfind : st.invites.find? (fun i => i.code = code) with _ | inv
  · left
    simp [joinTeam, hfind]
  · by_cases hexp : inv.expiresAt < now
    · left
      simp [joinTeam, hfind, hexp]
    · by_cases hused : inv.used
      · left
        simp [joinTeam, hfind, hexp, hused]
      · by_cases hex : ∃ m ∈ st.members, m.teamId = inv.teamId ∧ m.userId = u
        · left
          simp [joinTeam, hfind, hexp, hused, hex]
        · right
          have hrun : joinTeam st u code now =
              (.joined, ⟨markInviteUsed st.invites inv.id,
                         st.members ++ [⟨inv.teamId, u, inv.role⟩]⟩) := by
            simp [joinTeam, hfind, hexp, hused, hex]
          refine ⟨by rw [hrun], inv, hfind, by simpa using hused, hexp, by rw [hrun], ?_, ?_⟩
          · rw [hrun, find?_markInviteUsed, hfind]
            simp
          · rw [hrun]
            simp

/-- C4 counterexample: re-PATCHing a report's status to "done" through
`PATCH /api/report/:id` recomputes `resolvedAt` and `duration` — for a report
created at T0 = 0 patched done at T1 = 60000 and again at T2 = 180000, the
second patch moves `resolvedAt` from T1 to T2 and `duration` from 1 to 3
minutes; meanwhile `PATCH /api/report/:id/status` with "done" never sets
`resolvedAt` or `duration` at all. -/
theorem patchReport_done_twice_recomputes :
    (patchReport c4Report "done" 60000).resolvedAt = some 60000
    ∧ (patchReport c4Report "done" 60000).duration = some 1
    ∧ (patchReport (patchReport c4Report "done" 60000) "done" 180000).resolvedAt =
        some 180000
    ∧ (patchReport (patchReport c4Report "done" 60000) "done" 180000).duration =
        some 3
    ∧ (patchStatusHandler c4Report [] "u1" "User One" "done").1.resolvedAt = none
    ∧ (patchStatusHandler c4Report [] "u1" "User One" "done").1.duration = none := by
  refine ⟨rfl, by decide, rfl, by decide, rfl, rfl⟩

/-- C4 (amended): every `PATCH /api/report/:id` carrying status "done" sets
`resolvedAt` to the time of that patch and
`duration = round((patchTime − T0) / 60000)` minutes, recomputing both on
every such patch (so a second "done" patch overwrites the first-set values);
a non-"done" status updates only `status`; and
`PATCH /api/report/:id/status` updates only `status`, never touching
`resolvedAt` or `duration`. -/
theorem patchReport_done_semantics (r : QAReport) (status : String) (now : Nat) :
    (status = "done" →
      patchReport r status now =
        { r with status := "done", resolvedAt := some now,
                 duration := some (jsRoundDiv60000 ((now : Int) - (r.timestamp : Int))) })
    ∧ (status ≠ "done" → patchReport r status now = { r with status := status })
    ∧ (∀ acts actorId actorName,
        (patchStatusHandler r acts actorId actorName status).1 =
          { r with status := status }) := by
  refine ⟨fun h => ?_, fun h => ?_, fun acts actorId actorName => ?_⟩
  · subst h
    simp [patchReport]
  · simp [patchReport, h]
  · simp only [patchStatusHandler]
    split <;> rfl

/-- C4 witness: the amended theorem instantiated on the concrete report
created at time 0 and patched done at time 60000. -/
theorem patchReport_done_semantics_witness :
    patchReport c4Report "done" 60000 =
      { c4Report with status := "done", resolvedAt := some 60000,
                      duration := some (jsRoundDiv60000
                        ((60000 : Int) - (c4Report.timestamp : Int))) } :=
  (patchReport_done_semantics c4Report "done" 60000).1 rfl

/-- C6: for a status, priority, or due-date change to an owned report, an
acting user equal to the owner writes no Activity row, while a different
acting user writes exactly one row addressed to the owner (`userId`) and
authored by the actor (`actorId`). -/
theorem activity_fanout_actor_vs_owner (r : QAReport) (acts : List Activity)
    (owner actorId actorName status priority : String) (dueDate : Option Nat)
    (howner : r.userId = some owner)
    (hpriority : ["not assigned", "low", "medium", "high", "urgent"].contains
      priority = true) :
    (actorId = owner →
      (patchStatusHandler r acts actorId actorName status).2 = acts
      ∧ patchPriorityHandler r acts actorId priority =
          some ({ r with priority := priority }, acts)
      ∧ (patchDueDateHandler r acts actorId dueDate).2 = acts)
    ∧ (actorId ≠ owner →
      (patchStatusHandler r acts actorId actorName status).2 =
        acts ++ [{ userId := some owner, actorId := actorId, atype := "status",
                   reportId := some r.id,
                   message := actorName ++ " moved your task to \"" ++ status ++ "\"",
                   status := some status, priority := none, dueDate := none }]
      ∧ patchPriorityHandler r acts actorId priority =
          some ({ r with priority := priority },
            acts ++ [{ userId := some owner, actorId := actorId, atype := "priority",
                       reportId := some r.id,
                       message := "changed priority to " ++ priority,
                       status := none, priority := some priority, dueDate := none }])
      ∧ (patchDueDateHandler r acts actorId dueDate).2 =
          acts ++ [{ userId := some owner, actorId := actorId, atype := "due_date",
                     reportId := some r.id,
                     message := match dueDate with
                       | some d => "set due date to " ++ toString d
                       | none => "cleared the due date",
                     status := none, priority := none, dueDate := dueDate }]) := by
  have hp : priority = "not assigned" ∨ priority = "low" ∨ priority = "medium"
      ∨ priority = "high" ∨ priority = "urgent" := by simpa using hpriority
  constructor
  · intro h
    subst h
    refine ⟨?_, ?_, ?_⟩
    · simp [patchStatusHandler, howner]
    · rcases hp with h1 | h1 | h1 | h1 | h1 <;> subst h1 <;>
        simp [patchPriorityHandler, howner]
    · simp [patchDueDateHandler, howner]
  · intro h
    refine ⟨?_, ?_, ?_⟩
    · simp [patchStatusHandler, howner, Ne.symm h]
    · rcases hp with h1 | h1 | h1 | h1 | h1 <;> subst h1 <;>
        simp [patchPriorityHandler, howner, Ne.symm h]
    · simp [patchDueDateHandler, howner, Ne.symm h]

/-- C7: a successful `DELETE /api/report/:id` removes the report row, its
image file, and its metadata artifact (keeping every other file), and deletes
the report's owning site exactly when the deleted report was the last report
on that site — deleting a non-last report leaves the site list unchanged and
the remaining reports intact. -/
theorem deleteReport_cascade (st : DeleteState) (id : String) (report : QAReport)
    (hfind : st.reports.find? (fun r => r.id = id) = some report) :
    ∃ st', deleteReportHandler st id = some st'
      ∧ st'.reports = st.reports.filter (fun r => r.id ≠ id)
      ∧ report.imagePath ∉ st'.files
      ∧ ("uploads/" ++ id ++ ".json") ∉ st'.files
      ∧ (∀ f ∈ st.files, f ≠ report.imagePath →
          f ≠ "uploads/" ++ id ++ ".json" → f ∈ st'.files)
      ∧ (∀ sid, report.siteId = some sid →
          ((∀ r ∈ st.reports, r.siteId = some sid → r.id = id) →
            st'.sites = st.sites.filter (fun s => s.id ≠ sid))
          ∧ ((∃ r ∈ st.reports, r.id ≠ id ∧ r.siteId = some sid) →
            st'.sites = st.sites))
      ∧ (report.siteId = none → st'.sites = st.sites) := by
  refine ⟨_, by rw [deleteReportHandler, hfind], rfl, ?_, ?_, ?_, ?_, ?_⟩
  · intro hmem
    rw [List.mem_filter] at hmem
    rw [List.mem_filter] at hmem
    simp at hmem
  · intro hmem
    rw [List.mem_filter] at hmem
    simp at hmem
  · intro f hf h1 h2
    rw [List.mem_filter, List.mem_filter]
    exact ⟨⟨hf, by simpa using h1⟩, by simpa using h2⟩
  · intro sid hsid
    constructor
    · intro hlast
      have hempty : ((st.reports.filter (fun r => r.id ≠ id)).filter
          (fun r => r.siteId = some sid)) = [] := by
        rw [List.filter_eq_nil_iff]
        intro r hr
        rw [List.mem_filter] at hr
        obtain ⟨hr1, hr2⟩ := hr
        simp only [decide_eq_true_eq] at hr2 ⊢
        intro hcon
        exact hr2 (hlast r hr1 hcon)
      show cascadeSites st.sites (st.reports.filter (fun r => r.id ≠ id))
          report.siteId = st.sites.filter (fun s => s.id ≠ sid)
      rw [hsid]
      simp only [cascadeSites, hempty]
      simp
    · intro ⟨r, hr, hrid, hrsid⟩
      have hne : ((st.reports.filter (fun r => r.id ≠ id)).filter
          (fun r => r.siteId = some sid)).length ≠ 0 := by
        intro hcon
        rw [List.length_eq_zero, List.filter_eq_nil_iff] at hcon
        refine hcon r ?_ (by simp [hrsid])
        rw [List.mem_filter]
        exact ⟨hr, by simpa using hrid⟩
      show cascadeSites st.sites (st.reports.filter (fun r => r.id ≠ id))
          report.siteId = st.sites
      rw [hsid]
      simp only [cascadeSites]
      rw [if_neg hne]
  · intro hsid
    show cascadeSites st.sites (st.reports.filter (fun r => r.id ≠ id))
        report.siteId = st.sites
    rw [hsid]
    rfl

/-- C7 witness: deleting report "r1" while "r2" still lives on the same site
"s1" leaves the site list unchanged. -/
theorem deleteReport_cascade_witness :
    ∃ st', deleteReportHandler c7State "r1" = some st'
      ∧ st'.sites = c7State.sites := by
  obtain ⟨st', h1, _, _, _, _, h6, _⟩ :=
    deleteReport_cascade c7State "r1" c7r1 (by decide)
  exact ⟨st', h1, (h6 "s1" rfl).2 ⟨c7r2, by decide, by decide, rfl⟩⟩

/-- C8 counterexample: the fallback domain is the host with the FIRST
occurrence of "www." removed, not a leading one — for host
"app.www.example.com" (no leading "www.") the code yields "app.example.com"
instead of leaving the host intact; and an Open Graph site-name tag that is
present but empty is skipped in favour of the title. -/
theorem deriveSiteName_not_leading_www :
    deriveSiteName none "app.www.example.com" = "app.example.com"
    ∧ "app.example.com" ≠ "app.www.example.com"
    ∧ deriveSiteName (some (some "", "My Title")) "example.com" = "My Title" := by
  refine ⟨rfl, by decide, rfl⟩

/-- C8 (amended): the derived site name follows the priority chain — the
page's og:site_name value when present and non-empty, else the trimmed title
when non-empty, else the URL's host with the first occurrence of the
substring "www." removed (which strips a leading "www."); any fetch error
also degrades to that domain value and is never surfaced as an error. -/
theorem deriveSiteName_priority_chain (title hostname : String) :
    deriveSiteName none hostname = bareDomain hostname
    ∧ (∀ s, s ≠ "" → deriveSiteName (some (some s, title)) hostname = s)
    ∧ deriveSiteName (some (none, title)) hostname =
        (if jsTrim title = "" then bareDomain hostname else jsTrim title)
    ∧ deriveSiteName (some (some "", title)) hostname =
        (if jsTrim title = "" then bareDomain hostname else jsTrim title)
    ∧ (∀ rest : String, bareDomain ("www." ++ rest) = rest) := by
  refine ⟨rfl, fun s hs => by simp [deriveSiteName, jsOrElse, hs], ?_, ?_, ?_⟩
  · by_cases h : jsTrim title = "" <;> simp [deriveSiteName, jsOrElse, h]
  · by_cases h : jsTrim title = "" <;> simp [deriveSiteName, jsOrElse, h]
  · intro rest
    show String.mk (replaceFirstChars ('w' :: 'w' :: 'w' :: '.' :: rest.data)
      "www.".toList "".toList) = rest
    have hpre : ("www.".toList).isPrefixOf
        ('w' :: 'w' :: 'w' :: '.' :: rest.data) = true := by
      rw [List.isPrefixOf_iff_prefix]
      exact ⟨rest.data, rfl⟩
    rw [replaceFirstChars, if_pos hpre]
    simp [String.toList]

/-- C8 witness: a non-empty og:site_name wins, and a leading "www." is
stripped from the fallback domain. -/
theorem deriveSiteName_priority_chain_witness :
    deriveSiteName (some (some "OG Site", "Title")) "example.com" = "OG Site"
    ∧ bareDomain ("www." ++ "example.com") = "example.com" :=
  ⟨(deriveSiteName_priority_chain "Title" "example.com").2.1
      "OG Site" (by decide),
   (deriveSiteName_priority_chain "" "x").2.2.2.2 "example.com"⟩

/-- Every alphabet draw lands in the restricted 32-character alphabet. -/
theorem pickChar_mem (n : Nat) : pickChar n ∈ inviteCodeAlphabet := by
  have hk : n % 32 < 32 := Nat.mod_lt _ (by decide)
  unfold pickChar
  set k := n % 32 with hdef
  interval_cases k <;> decide

/-- Every generated code has the `TEAM-XXXX-XXXX-XXXX` shape over the
restricted alphabet, whatever the random draws were. -/
theorem codeFormatOk_generated (rand : List Nat) :
    codeFormatOk (handleGenerateNewCode rand) = true := by
  show codeFormatOk (String.mk (handleGenerateNewCodeChars rand)) = true
  simp [codeFormatOk, handleGenerateNewCodeChars, List.range_succ, pickChar_mem]

/-- C9: every successful comment creation persists exactly one MENTION
notification, and its recipient `userId` is the acting authenticated user —
the comment's own author — for every content string, every parent, and
independently of the report's owner (which the handler never consults). -/
theorem createComment_notifies_author (comments : List CommentRow)
    (notifs : List StoredNotification) (reportId content : String)
    (parentId : Option String) (actorId actorName newCommentId newNotifId : String)
    (now : Nat) (hrid : reportId ≠ "") (hcontent : content ≠ "") :
    createCommentHandler comments notifs reportId content parentId actorId
      actorName newCommentId newNotifId now =
      some
        (comments ++
          [{ id := newCommentId, content := content, reportId := reportId,
             parentId := parentId, userId := actorId }],
         notifs ++
          [{ id := newNotifId, userId := actorId, ntype := "MENTION",
             message := actorName ++ " mentioned you in a comment",
             read := false, createdAt := now, reportId := some reportId,
             commentId := some newCommentId }]) := by
  simp [createCommentHandler, hrid, hcontent]

/-- C9 witness: a concrete comment by "u2" on a report yields one MENTION
notification addressed to "u2" themselves. -/
theorem createComment_notifies_author_witness :
    createCommentHandler [] [] "r1" "hello" none "u2" "User Two" "c1" "n1" 500 =
      some
        ([{ id := "c1", content := "hello", reportId := "r1",
            parentId := none, userId := "u2" }],
         [{ id := "n1", userId := "u2", ntype := "MENTION",
            message := "User Two mentioned you in a comment",
            read := false, createdAt := 500, reportId := some "r1",
            commentId := some "c1" }]) :=
  createComment_notifies_author [] [] "r1" "hello" none "u2" "User Two" "c1"
    "n1" 500 (by decide) (by decide)

/-- C10: the invite-link route runs no authentication, membership or plan
check — its result is identical for any two Authorization headers including
none, and it always succeeds; the minted code has the `TEAM-XXXX-XXXX-XXXX`
shape over the 32-character alphabet without 0/1/I/O; the stored invite
carries the body role (defaulting to "member") and a 7-day expiry; and each
call appends one fresh invite row instead of reusing an existing one. -/
theorem inviteLink_unauthenticated_mint (invites : List TeamInvite)
    (teamId : String) (roleBody : Option String) (auth auth' : Option String)
    (now : Nat) (rand : List Nat) (newId : String) :
    inviteLinkHandler invites teamId roleBody auth now rand newId =
      inviteLinkHandler invites teamId roleBody auth' now rand newId
    ∧ codeFormatOk
        (inviteLinkHandler invites teamId roleBody none now rand newId).1 = true
    ∧ (inviteLinkHandler invites teamId roleBody auth now rand newId).2 =
        invites ++
          [{ id := newId, code := handleGenerateNewCode rand, teamId := teamId,
             role := roleBody.getD "member", email := none, used := false,
             expiresAt := now + 7 * 24 * 60 * 60 * 1000 }]
    ∧ (inviteLinkHandler invites teamId none auth now rand newId).2 =
        invites ++
          [{ id := newId, code := handleGenerateNewCode rand, teamId := teamId,
             role := "member", email := none, used := false,
             expiresAt := now + 7 * 24 * 60 * 60 * 1000 }]
    ∧ ((inviteLinkHandler invites teamId roleBody auth now rand newId).2).length =
        invites.length + 1 := by
  refine ⟨rfl, codeFormatOk_generated rand, rfl, rfl, ?_⟩
  simp [inviteLinkHandler]

/-- Derived overdue entries always carry `read = false`. -/
theorem overdueEntries_unread (reports : List QAReport) (u : String) (sod : Nat) :
    ∀ e ∈ overdueEntries reports u sod, e.read = false := by
  intro e he
  rw [overdueEntries, List.mem_filterMap] at he
  obtain ⟨a, _, hfa⟩ := he
  rcases hd : a.dueDate with _ | d <;> rw [hd] at hfa
  · exact absurd hfa (by simp)
  · have hfa2 : (if a.userId = some u ∧ d < sod ∧ a.status ≠ "resolved" then
        some (overdueEntry a d) else none) = some e := hfa
    by_cases hc : a.userId = some u ∧ d < sod ∧ a.status ≠ "resolved"
    · rw [if_pos hc] at hfa2
      cases hfa2
      rfl
    · rw [if_neg hc] at hfa2
      exact absurd hfa2 (by simp)

/-- Derived due-today entries always carry `read = false`. -/
theorem dueTodayEntries_unread (reports : List QAReport) (u : String)
    (sod eod : Nat) : ∀ e ∈ dueTodayEntries reports u sod eod, e.read = false := by
  intro e he
  rw [dueTodayEntries, List.mem_filterMap] at he
  obtain ⟨a, _, hfa⟩ := he
  rcases hd : a.dueDate with _ | d <;> rw [hd] at hfa
  · exact absurd hfa (by simp)
  · have hfa2 : (if a.userId = some u ∧ sod ≤ d ∧ d ≤ eod
          ∧ a.status ≠ "resolved" then
        some (dueTodayEntry a d) else none) = some e := hfa
    by_cases hc : a.userId = some u ∧ sod ≤ d ∧ d ≤ eod ∧ a.status ≠ "resolved"
    · rw [if_pos hc] at hfa2
      cases hfa2
      rfl
    · rw [if_neg hc] at hfa2
      exact absurd hfa2 (by simp)

/-- C5 counterexample: the derived entries are NOT restricted to open
reports — a report whose status is the terminal "done" (hence not open in
the spec's lifecycle) but not the never-written literal "resolved" still
produces a derived overdue entry in the feed. -/
theorem notification_feed_includes_done_report :
    specOpenReport c5DoneReport = false
    ∧ getNotifications [] [c5DoneReport] "u1" 100 200 =
        [overdueEntry c5DoneReport 10]
    ∧ (overdueEntry c5DoneReport 10).read = false := by
  refine ⟨rfl, by decide, rfl⟩

/-- C5 (amended): the notification feed is sorted by timestamp descending;
every entry comes from one of the three sources (the user's stored rows —
the 50 most recent — the derived overdue family, or the derived due-today
family); a derived overdue (resp. due-today) entry is produced for EVERY
report of the user whose status is not the literal string "resolved" — which
no handler ever writes, so completed "done" reports are included — with due
date before (resp. within) today's window; derived entries are recomputed at
read time from the report rows, never persisted, and always carry
`read = false`; and whenever the user has at most 50 stored rows, every
stored row appears, keeping its stored `read` flag. -/
theorem getNotifications_feed_spec (stored : List StoredNotification)
    (reports : List QAReport) (u : String) (sod eod : Nat) :
    List.Sorted feedDescR (getNotifications stored reports u sod eod)
    ∧ (∀ e ∈ getNotifications stored reports u sod eod,
        (∃ n ∈ stored, n.userId = u ∧ e = storedEntry n)
        ∨ e ∈ overdueEntries reports u sod
        ∨ e ∈ dueTodayEntries reports u sod eod)
    ∧ (∀ r ∈ reports, ∀ d, r.userId = some u → r.dueDate = some d →
        d < sod → r.status ≠ "resolved" →
        overdueEntry r d ∈ getNotifications stored reports u sod eod)
    ∧ (∀ r ∈ reports, ∀ d, r.userId = some u → r.dueDate = some d →
        sod ≤ d → d ≤ eod → r.status ≠ "resolved" →
        dueTodayEntry r d ∈ getNotifications stored reports u sod eod)
    ∧ (∀ e ∈ overdueEntries reports u sod, e.read = false)
    ∧ (∀ e ∈ dueTodayEntries reports u sod eod, e.read = false)
    ∧ ((stored.filter (fun n => n.userId = u)).length ≤ 50 →
        ∀ n ∈ stored, n.userId = u →
          storedEntry n ∈ getNotifications stored reports u sod eod) := by
  have hperm := List.perm_insertionSort feedDescR
    ((((stored.filter (fun n => n.userId = u)).insertionSort
        storedDescR).take 50).map storedEntry
      ++ overdueEntries reports u sod
      ++ dueTodayEntries reports u sod eod)
  refine ⟨List.sorted_insertionSort feedDescR _, ?_, ?_, ?_,
    overdueEntries_unread reports u sod, dueTodayEntries_unread reports u sod eod,
    ?_⟩
  · intro e he
    rw [getNotifications] at he
    have hmem := hperm.mem_iff.mp he
    rw [List.append_assoc, List.mem_append] at hmem
    rcases hmem with hmem | hmem
    · left
      rw [List.mem_map] at hmem
      obtain ⟨n, hn, hne⟩ := hmem
      have hn2 := (List.perm_insertionSort storedDescR _).mem_iff.mp
        (List.mem_of_mem_take hn)
      rw [List.mem_filter] at hn2
      exact ⟨n, hn2.1, by simpa using hn2.2, hne.symm⟩
    · rw [List.mem_append] at hmem
      exact hmem.imp_left (fun h => h) |>.imp_right (fun h => h) |> Or.inr
  · intro r hr d huser hdue hlt hstatus
    rw [getNotifications]
    apply hperm.mem_iff.mpr
    rw [List.append_assoc, List.mem_append]
    right
    rw [List.mem_append]
    left
    rw [overdueEntries, List.mem_filterMap]
    refine ⟨r, hr, ?_⟩
    rw [hdue]
    show (if r.userId = some u ∧ d < sod ∧ r.status ≠ "resolved" then
        some (overdueEntry r d) else none) = some (overdueEntry r d)
    rw [if_pos ⟨huser, hlt, hstatus⟩]
  · intro r hr d huser hdue hge hle hstatus
    rw [getNotifications]
    apply hperm.mem_iff.mpr
    rw [List.append_assoc, List.mem_append]
    right
    rw [List.mem_append]
    right
    rw [dueTodayEntries, List.mem_filterMap]
    refine ⟨r, hr, ?_⟩
    rw [hdue]
    show (if r.userId = some u ∧ sod ≤ d ∧ d ≤ eod ∧ r.status ≠ "resolved" then
        some (dueTodayEntry r d) else none) = some (dueTodayEntry r d)
    rw [if_pos ⟨huser, hge, hle, hstatus⟩]
  · intro hlen n hn hu
    rw [getNotifications]
    apply hperm.mem_iff.mpr
    rw [List.append_assoc, List.mem_append]
    left
    have hlen2 : ((stored.filter (fun n => n.userId = u)).insertionSort
        storedDescR).length ≤ 50 := by
      rw [(List.perm_insertionSort storedDescR _).length_eq]
      exact hlen
    rw [List.take_of_length_le hlen2, List.mem_map]
    refine ⟨n, (List.perm_insertionSort storedDescR _).mem_iff.mpr ?_, rfl⟩
    rw [List.mem_filter]
    exact ⟨hn, by simp [hu]⟩

/-- C5 witness: on a store with no persisted rows and one completed report
due at time 10 (before today's window 100–200), the amended theorem places
its derived overdue entry in the feed. -/
theorem getNotifications_feed_spec_witness :
    overdueEntry c5DoneReport 10 ∈ getNotifications [] [c5DoneReport] "u1" 100 200 :=
  (getNotifications_feed_spec [] [c5DoneReport] "u1" 100 200).2.2.1
    c5DoneReport (by simp) 10 rfl rfl (by decide) (by decide)

/-- C6 witness: on the concrete report owned by "u1", the actor "u2" produces
exactly one status Activity addressed to "u1". -/
theorem activity_fanout_actor_vs_owner_witness :
    (patchStatusHandler c4Report [] "u2" "User Two" "done").2 =
      [{ userId := some "u1", actorId := "u2", atype := "status",
         reportId := some "r1",
         message := "User Two moved your task to \"done\"",
         status := some "done", priority := none, dueDate := none }] := by
  have h := ((activity_fanout_actor_vs_owner c4Report [] "u1" "u2" "User Two"
    "done" "low" none rfl (by decide)).2 (by decide)).1
  simpa using h

end QABackend
